import Mathlib

/-!
Verification of the EC2-style request marshaling layer and of the
`DynamoDBer` capability interface of this repository.

The repository source provides the tests (`TestEC2Request`,
`TestEC2RequestError`, the `fakeEC2Request` / `fakeEC2Response` schemas)
and the `DynamoDBer` interface declaration.  The implementation of the
optional-scalar wrappers, the field encoder, the form serializer and the
`Do` dispatcher is not part of the provided source, so those components
are modelled here from the specification (sections 4.1-4.5), while the
request/response schemas and all concrete expected values come from the
test source.
-/

/-- Modelled from the spec: the float/double wrapper values are rendered
"in a format that round-trips, e.g. minimal decimal representation".
The missing wrapper implementation is modelled with exact decimal numbers
`mant * 10 ^ (-fracDigits)` rather than binary floating point, so that the
decimal rendering used on the wire is explicit. -/
structure Decimal where
  mant : Int
  fracDigits : Nat
deriving DecidableEq, Repr

/-- Render a `Decimal` with a decimal point before its last `fracDigits`
digits, e.g. `⟨12, 1⟩` renders as `"1.2"`. -/
def Decimal.render (d : Decimal) : String :=
  let sign := if d.mant < 0 then "-" else ""
  let digs := toString d.mant.natAbs
  if d.fracDigits = 0 then sign ++ digs
  else
    let padded := (List.replicate (d.fracDigits + 1 - digs.length) '0').asString ++ digs
    let cut := padded.length - d.fracDigits
    sign ++ (padded.take cut) ++ "." ++ (padded.drop cut)

/-- The scalar value kinds supported by the encoder: the six primitive
types of the optional wrappers (string, boolean, int32, int64, float32,
float64) from spec section 3. -/
inductive Scalar where
  | str (s : String)
  | boolean (b : Bool)
  | int (n : Int)
  | long (n : Int)
  | flt (d : Decimal)
  | double (d : Decimal)
deriving DecidableEq, Repr

/-- Modelled from the spec: stringification of a scalar for the wire
(booleans as `"true"`/`"false"`, integers base-10, floats as minimal
decimal representation). -/
def Scalar.render : Scalar → String
  | .str s => s
  | .boolean b => if b then "true" else "false"
  | .int n => toString n
  | .long n => toString n
  | .flt d => d.render
  | .double d => d.render

/-- Modelled from the spec (section 4.1): an optional-scalar wrapper is a
pair of a value and a presence flag. -/
structure OptScalar where
  val : Scalar
  present : Bool
deriving DecidableEq, Repr

/-- `StringValue` wrapper: optional string (spec section 4.1). -/
structure StringValue where
  value : String
  present : Bool
deriving DecidableEq, Repr

/-- `BooleanValue` wrapper: optional boolean. -/
structure BooleanValue where
  value : Bool
  present : Bool
deriving DecidableEq, Repr

/-- `IntegerValue` wrapper: optional 32-bit integer. -/
structure IntegerValue where
  value : Int
  present : Bool
deriving DecidableEq, Repr

/-- `LongValue` wrapper: optional 64-bit integer. -/
structure LongValue where
  value : Int
  present : Bool
deriving DecidableEq, Repr

/-- `FloatValue` wrapper: optional 32-bit float, modelled as `Decimal`. -/
structure FloatValue where
  value : Decimal
  present : Bool
deriving DecidableEq, Repr

/-- `DoubleValue` wrapper: optional 64-bit float, modelled as `Decimal`. -/
structure DoubleValue where
  value : Decimal
  present : Bool
deriving DecidableEq, Repr

/-- Factory `String(v)`: wraps a string with presence=true. -/
def aws.String (s : String) : StringValue := ⟨s, true⟩

/-- Factory `True()`: a present boolean wrapper holding `true`. -/
def aws.True : BooleanValue := ⟨true, true⟩

/-- Factory `False()`: a present boolean wrapper holding `false`. -/
def aws.False : BooleanValue := ⟨false, true⟩

/-- Factory `Integer(v)`. -/
def aws.Integer (n : Int) : IntegerValue := ⟨n, true⟩

/-- Factory `Long(v)`. -/
def aws.Long (n : Int) : LongValue := ⟨n, true⟩

/-- Factory `Float(v)`. -/
def aws.Float (d : Decimal) : FloatValue := ⟨d, true⟩

/-- Factory `Double(v)`. -/
def aws.Double (d : Decimal) : DoubleValue := ⟨d, true⟩

/-- One field of a nested structure: nested-structure fields in this
design are flat optional scalars (spec section 4.2), each carrying its
wire-name tag. -/
structure NestedField where
  tag : String
  w : OptScalar
deriving DecidableEq, Repr

/-- A nested structure is its ordered list of tagged optional-scalar
fields. -/
abbrev NestedStruct := List NestedField

/-- The value of one request-structure field, covering the closed set of
encoding kinds of spec sections 3 and 9 plus a representative for any
field kind outside that set (which the encoder must reject). -/
inductive FieldVal where
  | optScalar (w : OptScalar)
  | plainScalar (v : Scalar)
  | scalarSeq (xs : List Scalar)
  | structRef (o : Option NestedStruct)
  | structSeq (xs : List NestedStruct)
  | unsupported (kind : String)
deriving DecidableEq, Repr

/-- One request-structure field: its wire-name tag and its value. -/
structure ReqField where
  tag : String
  v : FieldVal
deriving DecidableEq, Repr

/-- A request structure is its ordered list of declared fields
(spec section 3), evaluated in declaration order. -/
abbrev RequestStruct := List ReqField

/-- Whether a field's kind is one of the five supported encoding kinds. -/
def ReqField.supportedB (f : ReqField) : Bool :=
  match f.v with
  | .unsupported _ => false
  | _ => true

/-- Encode one field of a nested structure under a wire-name stem `pfx`. -/
def encodeNestedField (pfx : String) (f : NestedField) : List (String × String) :=
  if f.w.present then [(pfx ++ f.tag, f.w.val.render)] else []

/-- Encode a nested structure: each present field becomes one parameter
`pfx ++ innerTag` (spec section 4.2). -/
def encodeNested (pfx : String) (ns : NestedStruct) : List (String × String) :=
  ns.flatMap (encodeNestedField pfx)

/-- Modelled from the spec (section 4.2): the per-field encoding rules of
the field encoder, producing the wire parameters of one field.  The
`unsupported` kind produces nothing here; it is rejected up front by
`encodeRequest`. -/
def encodeField (f : ReqField) : List (String × String) :=
  match f.v with
  | .optScalar w => if w.present then [(f.tag, w.val.render)] else []
  | .plainScalar v => [(f.tag, v.render)]
  | .scalarSeq xs =>
      (List.enum xs).map (fun p => (f.tag ++ "." ++ toString (p.1 + 1), p.2.render))
  | .structRef none => []
  | .structRef (some ns) => encodeNested (f.tag ++ ".") ns
  | .structSeq xss =>
      (List.enum xss).flatMap
        (fun p => encodeNested (f.tag ++ "." ++ toString (p.1 + 1) ++ ".") p.2)
  | .unsupported _ => []

/-- Modelled from the spec (section 4.2): the full parameter list of a
request: the fixed `Action` and `Version` parameters followed by the
per-field parameters in declaration order. -/
def encodeParams (action version : String) (r : RequestStruct) : List (String × String) :=
  ("Action", action) :: ("Version", version) :: r.flatMap encodeField

/-- Modelled from the spec (sections 4.2 and 7): the encoder fails fast
on any field of an unsupported kind ("a programming/schema error"),
otherwise yields the parameter list. -/
def encodeRequest (action version : String) (r : RequestStruct) :
    Except String (List (String × String)) :=
  if r.all ReqField.supportedB then .ok (encodeParams action version r)
  else .error "unsupported field kind in request structure"

/-- Byte-order comparison of strings as character lists (the sort order
used for form keys). -/
def lexLe : List Char → List Char → Bool
  | [], _ => true
  | _ :: _, [] => false
  | a :: as, b :: bs =>
    if a.toNat < b.toNat then true
    else if b.toNat < a.toNat then false
    else lexLe as bs

/-- The key order used by the form serializer. -/
def keyLe (p q : String × String) : Prop := lexLe p.1.data q.1.data = true

instance : DecidableRel keyLe := fun p q => by
  unfold keyLe; infer_instance

/-- Modelled from the spec (section 4.3): the serializer emits parameters
in ascending lexical order of key. -/
def sortParams (ps : List (String × String)) : List (String × String) :=
  List.insertionSort keyLe ps

/-- Uppercase hex digit of a value below 16. -/
def hexDigit (n : Nat) : Char :=
  if n < 10 then Char.ofNat (48 + n) else Char.ofNat (55 + n)

/-- Characters kept verbatim by URL form encoding: ASCII letters, digits,
and `-`, `.`, `_`, `~`. -/
def isUnreservedChar (c : Char) : Bool :=
  (65 ≤ c.toNat && c.toNat ≤ 90) || (97 ≤ c.toNat && c.toNat ≤ 122) ||
  (48 ≤ c.toNat && c.toNat ≤ 57) ||
  c.toNat = 45 || c.toNat = 46 || c.toNat = 95 || c.toNat = 126

/-- Modelled from the spec (section 4.3): percent-encoding of one
character per the `application/x-www-form-urlencoded` rules: unreserved
characters kept, space as `+`, anything else as `%XX`. -/
def escapeChar (c : Char) : List Char :=
  if isUnreservedChar c then [c]
  else if c = ' ' then ['+']
  else ['%', hexDigit (c.toNat / 16 % 16), hexDigit (c.toNat % 16)]

/-- Percent-encode a whole string (as a character list). -/
def urlEscape (s : List Char) : List Char := s.flatMap escapeChar

/-- One serialized `key=value` segment. -/
def encodePair (p : String × String) : List Char :=
  urlEscape p.1.data ++ '=' :: urlEscape p.2.data

/-- Join segments with `&`. -/
def joinAmp : List (List Char) → List Char
  | [] => []
  | [x] => x
  | x :: y :: xs => x ++ '&' :: joinAmp (y :: xs)

/-- Modelled from the spec (section 4.3): the form serializer — sort the
parameters by key, percent-encode each key and value, join each pair with
`=` and the pairs with `&`. -/
def serializeForm (ps : List (String × String)) : String :=
  (joinAmp ((sortParams ps).map encodePair)).asString

/-- Hex digit value of a character, if it is one (upper or lower case). -/
def hexVal (c : Char) : Option Nat :=
  if 48 ≤ c.toNat && c.toNat ≤ 57 then some (c.toNat - 48)
  else if 65 ≤ c.toNat && c.toNat ≤ 70 then some (c.toNat - 55)
  else if 97 ≤ c.toNat && c.toNat ≤ 102 then some (c.toNat - 87)
  else none

/-- Percent-decoding of one segment: `%XX` becomes the character with
code `XX` (failing on a malformed escape), `+` becomes a space, anything
else passes through.  Models the URL-form unescaping performed by
`ParseForm` on the receiving side. -/
def urlUnescape : List Char → Option (List Char)
  | [] => some []
  | c :: rest =>
    if c = '%' then
      match rest with
      | h :: l :: rest' =>
        match hexVal h, hexVal l, urlUnescape rest' with
        | some a, some b, some t => some (Char.ofNat (16 * a + b) :: t)
        | _, _, _ => none
      | _ => none
    else if c = '+' then (urlUnescape rest).map (' ' :: ·)
    else (urlUnescape rest).map (c :: ·)

/-- Prepend a character to the first chunk of a chunk list. -/
def consHead (c : Char) : List (List Char) → List (List Char)
  | [] => [[c]]
  | g :: gs => (c :: g) :: gs

/-- Split a character list at every occurrence of `sep` (the separators
are consumed; `n` separators yield `n + 1` chunks). -/
def splitOnChar (sep : Char) : List Char → List (List Char)
  | [] => [[]]
  | c :: rest =>
    if c = sep then [] :: splitOnChar sep rest
    else consHead c (splitOnChar sep rest)

/-- Split one `key=value` segment at its first `=`; a segment with no `=`
is all key with an empty value. -/
def splitPair : List Char → List Char × List Char
  | [] => ([], [])
  | c :: rest =>
    if c = '=' then ([], rest)
    else ((c :: (splitPair rest).1), (splitPair rest).2)

/-- Decode the list of non-empty `&`-separated segments, failing if any
percent escape is malformed. -/
def decodeSegs : List (List Char) → Option (List (String × String))
  | [] => some []
  | seg :: rest =>
    match urlUnescape (splitPair seg).1, urlUnescape (splitPair seg).2,
        decodeSegs rest with
    | some k, some v, some t => some ((k.asString, v.asString) :: t)
    | _, _, _ => none

/-- Modelled from the spec / `ParseForm` in the tests: decode a form
body back into its key/value pairs — split on `&`, drop empty segments,
split each segment at `=`, percent-decode both halves. -/
def decodeForm (body : String) : Option (List (String × String)) :=
  decodeSegs ((splitOnChar '&' body.data).filter (fun seg => !seg.isEmpty))

/-- `EmbeddedStruct` from the test source: one `StringValue` field with
wire tag `Value`. -/
structure EmbeddedStruct where
  Value : StringValue
deriving DecidableEq, Repr

/-- The `fakeEC2Request` structure of the test source, fields in
declaration order with their `ec2:"..."` tags kept alongside in
`fakeEC2Request.toRequestStruct`. -/
structure fakeEC2Request where
  PresentString : StringValue
  MissingString : StringValue
  PresentInteger : IntegerValue
  MissingInteger : IntegerValue
  PresentLong : LongValue
  MissingLong : LongValue
  PresentDouble : DoubleValue
  MissingDouble : DoubleValue
  PresentFloat : FloatValue
  MissingFloat : FloatValue
  PresentBoolean : BooleanValue
  MissingBoolean : BooleanValue
  PresentSlice : List String
  MissingSlice : List String
  PresentStructSlice : List EmbeddedStruct
  MissingStructSlice : List EmbeddedStruct
  PresentStruct : Option EmbeddedStruct
  MissingStruct : Option EmbeddedStruct
deriving DecidableEq, Repr

/-- View of a `StringValue` as a generic optional scalar. -/
def StringValue.toOpt (w : StringValue) : OptScalar := ⟨.str w.value, w.present⟩

/-- View of a `BooleanValue` as a generic optional scalar. -/
def BooleanValue.toOpt (w : BooleanValue) : OptScalar := ⟨.boolean w.value, w.present⟩

/-- View of an `IntegerValue` as a generic optional scalar. -/
def IntegerValue.toOpt (w : IntegerValue) : OptScalar := ⟨.int w.value, w.present⟩

/-- View of a `LongValue` as a generic optional scalar. -/
def LongValue.toOpt (w : LongValue) : OptScalar := ⟨.long w.value, w.present⟩

/-- View of a `FloatValue` as a generic optional scalar. -/
def FloatValue.toOpt (w : FloatValue) : OptScalar := ⟨.flt w.value, w.present⟩

/-- View of a `DoubleValue` as a generic optional scalar. -/
def DoubleValue.toOpt (w : DoubleValue) : OptScalar := ⟨.double w.value, w.present⟩

/-- The schema of `EmbeddedStruct`: its single `Value` field. -/
def EmbeddedStruct.toNested (e : EmbeddedStruct) : NestedStruct :=
  [⟨"Value", e.Value.toOpt⟩]

/-- The schema of `fakeEC2Request`: its fields in declaration order with
the wire tags of the test source. -/
def fakeEC2Request.toRequestStruct (r : fakeEC2Request) : RequestStruct :=
  [ ⟨"PresentString", .optScalar r.PresentString.toOpt⟩,
    ⟨"MissingString", .optScalar r.MissingString.toOpt⟩,
    ⟨"PresentInteger", .optScalar r.PresentInteger.toOpt⟩,
    ⟨"MissingInteger", .optScalar r.MissingInteger.toOpt⟩,
    ⟨"PresentLong", .optScalar r.PresentLong.toOpt⟩,
    ⟨"MissingLong", .optScalar r.MissingLong.toOpt⟩,
    ⟨"PresentDouble", .optScalar r.PresentDouble.toOpt⟩,
    ⟨"MissingDouble", .optScalar r.MissingDouble.toOpt⟩,
    ⟨"PresentFloat", .optScalar r.PresentFloat.toOpt⟩,
    ⟨"MissingFloat", .optScalar r.MissingFloat.toOpt⟩,
    ⟨"PresentBoolean", .optScalar r.PresentBoolean.toOpt⟩,
    ⟨"MissingBoolean", .optScalar r.MissingBoolean.toOpt⟩,
    ⟨"PresentSlice", .scalarSeq (r.PresentSlice.map .str)⟩,
    ⟨"MissingSlice", .scalarSeq (r.MissingSlice.map .str)⟩,
    ⟨"PresentStructSlice", .structSeq (r.PresentStructSlice.map EmbeddedStruct.toNested)⟩,
    ⟨"MissingStructSlice", .structSeq (r.MissingStructSlice.map EmbeddedStruct.toNested)⟩,
    ⟨"PresentStruct", .structRef (r.PresentStruct.map EmbeddedStruct.toNested)⟩,
    ⟨"MissingStruct", .structRef (r.MissingStruct.map EmbeddedStruct.toNested)⟩ ]

/-- The Go zero value of `fakeEC2Request` (`fakeEC2Request{}` in the
error test): absent wrappers, nil slices, nil references. -/
def fakeEC2Request.zero : fakeEC2Request :=
  { PresentString := ⟨"", false⟩, MissingString := ⟨"", false⟩,
    PresentInteger := ⟨0, false⟩, MissingInteger := ⟨0, false⟩,
    PresentLong := ⟨0, false⟩, MissingLong := ⟨0, false⟩,
    PresentDouble := ⟨⟨0, 0⟩, false⟩, MissingDouble := ⟨⟨0, 0⟩, false⟩,
    PresentFloat := ⟨⟨0, 0⟩, false⟩, MissingFloat := ⟨⟨0, 0⟩, false⟩,
    PresentBoolean := ⟨false, false⟩, MissingBoolean := ⟨false, false⟩,
    PresentSlice := [], MissingSlice := [],
    PresentStructSlice := [], MissingStructSlice := [],
    PresentStruct := none, MissingStruct := none }

/-- The example request built in `TestEC2Request`: present fields set via
the factories, missing fields left at their zero values. -/
def exampleRequest : fakeEC2Request :=
  { fakeEC2Request.zero with
    PresentString := aws.String "string",
    PresentBoolean := aws.True,
    PresentInteger := aws.Integer 1,
    PresentLong := aws.Long 2,
    PresentDouble := aws.Double ⟨12, 1⟩,
    PresentFloat := aws.Float ⟨23, 1⟩,
    PresentSlice := ["one", "two"],
    PresentStruct := some ⟨aws.String "v"⟩,
    PresentStructSlice := [⟨aws.String "p"⟩, ⟨aws.String "q"⟩] }

/-- AWS credentials as built by `Creds` in the tests. -/
structure Credentials where
  accessKeyID : String
  secretAccessKey : String
  securityToken : String
deriving DecidableEq, Repr

/-- Factory `Creds(accessKeyID, secretAccessKey, securityToken)`. -/
def Creds (a s t : String) : Credentials := ⟨a, s, t⟩

/-- The execution context (spec section 3): service, region,
credentials. -/
structure Context where
  Service : String
  Region : String
  Credentials : Credentials
deriving DecidableEq, Repr

/-- The `EC2Client` of the tests, minus the external HTTP transport (which
is passed explicitly to `Do` here). -/
structure EC2Client where
  Context : Context
  Endpoint : String
  APIVersion : String
deriving DecidableEq, Repr

/-- An outgoing HTTP request as the dispatcher builds it. -/
structure HTTPRequest where
  Method : String
  URL : String
  Headers : List (String × String)
  Body : String
deriving DecidableEq, Repr

/-- An HTTP response as seen by the dispatcher. -/
structure HTTPResponse where
  StatusCode : Nat
  Body : String
deriving DecidableEq, Repr

/-- Modelled from the spec (section 4.4, step 3): signing is an external
collaborator `sign(request, credentials) -> signature` treated as a
black box; this model derives a visibly non-empty signature string from
the credentials and context. -/
def signRequest (ctx : Context) (body : String) : String :=
  "AWS " ++ ctx.Credentials.accessKeyID ++ ":" ++ ctx.Service ++ "/" ++
    ctx.Region ++ "/" ++ toString body.length

/-- Modelled from the spec (section 4.4, steps 1-3): encode and serialize
the request structure and build the HTTP request with its fixed headers
(`Content-Type`, the fixed `User-Agent` identifier `aws-go` checked by the
tests, and the signature as `Authorization`). -/
def EC2Client.buildRequest (c : EC2Client) (action method path : String)
    (r : RequestStruct) : Except String HTTPRequest :=
  match encodeRequest action c.APIVersion r with
  | .error e => .error e
  | .ok ps =>
    let body := serializeForm ps
    .ok { Method := method
          URL := c.Endpoint ++ path
          Headers := [("Content-Type", "application/x-www-form-urlencoded"),
                      ("User-Agent", "aws-go"),
                      ("Authorization", signRequest c.Context body)]
          Body := body }

/-- Drop everything up to and including the first occurrence of `pat`;
`none` if `pat` does not occur. -/
def dropAfter (pat : List Char) : List Char → Option (List Char)
  | [] => none
  | c :: rest =>
    if pat.isPrefixOf (c :: rest) then some ((c :: rest).drop pat.length)
    else dropAfter pat rest

/-- Everything before the first occurrence of `pat`, plus the remainder
after it; `none` if `pat` does not occur. -/
def takeBefore (pat : List Char) : List Char → Option (List Char × List Char)
  | [] => none
  | c :: rest =>
    if pat.isPrefixOf (c :: rest) then some ([], (c :: rest).drop pat.length)
    else
      match takeBefore pat rest with
      | some p => some (c :: p.1, p.2)
      | none => none

/-- Text content of the first `<tag>...</tag>` element in `s`. -/
def textOf (tag : String) (s : String) : Option String := do
  let afterOpen ← dropAfter ("<" ++ tag ++ ">").data s.data
  let p ← takeBefore ("</" ++ tag ++ ">").data afterOpen
  pure p.1.asString

/-- The structured API fault of the source: the `Type`, `Code` and
`Message` of one wire error plus the request identifier (`Type'` models
the Go field `Type`, whose name is reserved here). -/
structure APIError where
  Type' : String
  Code : String
  Message : String
  RequestID : String
deriving DecidableEq, Repr

/-- Modelled from the spec (section 4.5, fault path): parse the fixed
fault schema and surface the first `<Error>` element's triple, plus the
request identifier; `none` when the body has no complete `<Error>`
element with the three tags (a malformed fault body). -/
def parseFirstError (body : String) : Option APIError := do
  let eblock ← textOf "Error" body
  let ty ← textOf "Type" eblock
  let code ← textOf "Code" eblock
  let msg ← textOf "Message" eblock
  pure ⟨ty, code, msg, (textOf "RequestId" body).getD ""⟩

/-- The `fakeEC2Response` structure of the test source: one string field
`IPAddress` bound to the XML tag `IpAddress`. -/
structure fakeEC2Response where
  IPAddress : String
deriving DecidableEq, Repr

/-- Modelled from the spec (section 4.5, success path): populate the
output structure per its field-to-tag mapping; a tag absent from the body
leaves the field at its zero value. -/
def fakeEC2Response.decode (body : String) : fakeEC2Response :=
  ⟨(textOf "IpAddress" body).getD ""⟩

/-- The possible outcomes of `Do`, separating the error taxonomy of spec
section 7: encoding schema error, transport error, decode error, and
structured API fault. -/
inductive DoResult (β : Type) where
  | ok (out : β)
  | apiError (e : APIError)
  | decodeError (e : String)
  | transportError (e : String)
  | encodeError (e : String)
deriving DecidableEq, Repr

/-- Modelled from the spec (section 4.4): the dispatcher `Do` — build the
request, send it over the provided transport, and branch on the status
code: success range decodes the body into the output (via `decodeOut`),
anything else decodes the fault body into an `APIError`; a fault body
that does not parse is a decode error distinct from the API fault. -/
def EC2Client.Do {β : Type} (c : EC2Client) (action method path : String)
    (r : RequestStruct) (transport : HTTPRequest → Except String HTTPResponse)
    (decodeOut : String → β) : DoResult β :=
  match c.buildRequest action method path r with
  | .error e => .encodeError e
  | .ok req =>
    match transport req with
    | .error e => .transportError e
    | .ok resp =>
      if 200 ≤ resp.StatusCode ∧ resp.StatusCode ≤ 299 then
        .ok (decodeOut resp.Body)
      else
        match parseFirstError resp.Body with
        | some apiErr => .apiError apiErr
        | none => .decodeError "malformed fault body"

/-- Modelled from the spec: the vendor SDK query input type, treated as
an external black box. -/
structure QueryInput where
  raw : String
deriving DecidableEq, Repr

/-- Modelled from the spec: the vendor SDK query output type, treated as
an external black box. -/
structure QueryOutput where
  raw : String
deriving DecidableEq, Repr

/-- A Go `error` value, treated as a black box. -/
structure GoError where
  msg : String
deriving DecidableEq, Repr

/-- The signature `Query(*dynamodb.QueryInput) (*dynamodb.QueryOutput,
error)` of the capability interface; Go pointers and the possibly-nil
error are modelled with `Option`. -/
abbrev QuerySig := Option QueryInput → Option QueryOutput × Option GoError

/-- The one-method `DynamoDBer` capability interface of
`src/dynamodber.go`, modelled as a record of its method. -/
structure DynamoDBer where
  Query : QuerySig

/-- Modelled from the spec: the concrete vendor client
`dynamodb.DynamoDB`, abstracted to its native `Query` method. -/
structure DynamoDB where
  Query : QuerySig

/-- The interface assignment `var _ DynamoDBer = (*dynamodb.DynamoDB)(nil)`:
the concrete client used through the interface, with no wrapping logic. -/
def DynamoDB.toDynamoDBer (c : DynamoDB) : DynamoDBer := ⟨c.Query⟩

theorem lexLe_total : ∀ a b : List Char, lexLe a b = true ∨ lexLe b a = true
  | [], _ => Or.inl rfl
  | _ :: _, [] => Or.inr rfl
  | a :: as, b :: bs => by
    by_cases h1 : a.toNat < b.toNat
    · exact Or.inl (by simp [lexLe, h1])
    · by_cases h2 : b.toNat < a.toNat
      · exact Or.inr (by simp [lexLe, h2])
      · rcases lexLe_total as bs with h | h
        · exact Or.inl (by simp [lexLe, h1, h2, h])
        · exact Or.inr (by simp [lexLe, h1, h2, h])

theorem lexLe_trans : ∀ a b c : List Char,
    lexLe a b = true → lexLe b c = true → lexLe a c = true
  | [], _, _ => fun _ _ => rfl
  | _ :: _, [], _ => fun h _ => by simp [lexLe] at h
  | _ :: _, _ :: _, [] => fun _ h => by simp [lexLe] at h
  | a :: as, b :: bs, c :: cs => fun h1 h2 => by
    simp only [lexLe] at h1 h2 ⊢
    by_cases hab : a.toNat < b.toNat
    · have hcb : ¬ c.toNat < b.toNat := by
        intro hcb
        have hbc : ¬ b.toNat < c.toNat := by omega
        simp [hbc, hcb] at h2
      have hac : a.toNat < c.toNat := by
        by_cases hbc : b.toNat < c.toNat <;> omega
      simp [hac]
    · by_cases hba : b.toNat < a.toNat
      · simp [hab, hba] at h1
      · simp [hab, hba] at h1
        by_cases hbc : b.toNat < c.toNat
        · have hac : a.toNat < c.toNat := by omega
          simp [hac]
        · by_cases hcb : c.toNat < b.toNat
          · simp [hbc, hcb] at h2
          · simp [hbc, hcb] at h2
            have hac : ¬ a.toNat < c.toNat := by omega
            have hca : ¬ c.toNat < a.toNat := by omega
            simp [hac, hca]
            exact lexLe_trans as bs cs h1 h2

theorem lexLe_antisymm : ∀ a b : List Char,
    lexLe a b = true → lexLe b a = true → a = b
  | [], [] => fun _ _ => rfl
  | [], _ :: _ => fun _ h2 => by simp [lexLe] at h2
  | _ :: _, [] => fun h1 _ => by simp [lexLe] at h1
  | a :: as, b :: bs => fun h1 h2 => by
    simp only [lexLe] at h1 h2
    by_cases hab : a.toNat < b.toNat <;> by_cases hba : b.toNat < a.toNat <;>
      simp [hab, hba] at h1 h2
    · omega
    · have hn : a.toNat = b.toNat := by omega
      have hc : a = b := by
        have := congrArg Char.ofNat hn
        rwa [Char.ofNat_toNat, Char.ofNat_toNat] at this
      rw [hc, lexLe_antisymm as bs h1 h2]

instance : IsTotal (String × String) keyLe :=
  ⟨fun p q => lexLe_total p.1.data q.1.data⟩

instance : IsTrans (String × String) keyLe :=
  ⟨fun p q r h1 h2 => lexLe_trans p.1.data q.1.data r.1.data h1 h2⟩

/-- Strict ascending key order between two parameters: weakly ordered
keys that are not equal. -/
def keyStrict (p q : String × String) : Prop := keyLe p q ∧ p.1 ≠ q.1

instance : IsAntisymm (String × String) keyStrict :=
  ⟨fun p q h1 h2 =>
    absurd (String.ext (lexLe_antisymm p.1.data q.1.data h1.1 h2.1)) h1.2⟩

theorem middle_perm {α : Type} (x y : α) (P F Q : List α) :
    (x :: y :: (P ++ (F ++ Q))).Perm (F ++ (x :: y :: (P ++ Q))) := by
  have h2 : (([x, y] ++ P) ++ F).Perm ((F ++ [x, y]) ++ P) := by
    have h0 : (([x, y] ++ P) ++ F).Perm (F ++ ([x, y] ++ P)) :=
      List.perm_append_comm
    rwa [← List.append_assoc] at h0
  have h : ((([x, y] ++ P) ++ F) ++ Q).Perm (((F ++ [x, y]) ++ P) ++ Q) :=
    h2.append_right Q
  simpa [List.append_assoc] using h

/-- Inserting one field between `pre` and `post` contributes exactly that
field's parameters, up to parameter order. -/
theorem encodeParams_insert_perm (a v : String) (f : ReqField)
    (pre post : RequestStruct) :
    (encodeParams a v (pre ++ f :: post)).Perm
      (encodeField f ++ encodeParams a v (pre ++ post)) := by
  unfold encodeParams
  simp only [List.flatMap_append, List.flatMap_cons]
  exact middle_perm _ _ _ _ _

/-- A field that emits nothing leaves the parameter list unchanged. -/
theorem encodeParams_insert_silent (a v : String) (f : ReqField)
    (pre post : RequestStruct) (hf : encodeField f = []) :
    encodeParams a v (pre ++ f :: post) = encodeParams a v (pre ++ post) := by
  unfold encodeParams
  simp [List.flatMap_append, List.flatMap_cons, hf]

theorem data_asString (l : List Char) : l.asString.data = l := rfl

theorem hexDigit_props : ∀ n, n < 16 →
    hexVal (hexDigit n) = some n ∧ hexDigit n ≠ '&' ∧ hexDigit n ≠ '=' ∧
    hexDigit n ≠ '%' ∧ hexDigit n ≠ '+' := by decide

theorem mem_escapeChar {c x : Char} (hx : x ∈ escapeChar c) :
    x ≠ '&' ∧ x ≠ '=' := by
  unfold escapeChar at hx
  split at hx
  · next h1 =>
    simp at hx
    subst hx
    refine ⟨?_, ?_⟩ <;> (rintro rfl; revert h1; decide)
  · split at hx
    · simp at hx; subst hx; exact ⟨by decide, by decide⟩
    · simp at hx
      rcases hx with rfl | rfl | rfl
      · exact ⟨by decide, by decide⟩
      · have h := hexDigit_props (c.toNat / 16 % 16) (Nat.mod_lt _ (by omega))
        exact ⟨h.2.1, h.2.2.1⟩
      · have h := hexDigit_props (c.toNat % 16) (Nat.mod_lt _ (by omega))
        exact ⟨h.2.1, h.2.2.1⟩

theorem amp_not_mem_urlEscape (s : List Char) : '&' ∉ urlEscape s := by
  intro h
  rcases List.mem_flatMap.mp h with ⟨c, _, hc⟩
  exact (mem_escapeChar hc).1 rfl

theorem eqc_not_mem_urlEscape (s : List Char) : '=' ∉ urlEscape s := by
  intro h
  rcases List.mem_flatMap.mp h with ⟨c, _, hc⟩
  exact (mem_escapeChar hc).2 rfl

theorem urlUnescape_cons_not_pct (c : Char) (rest : List Char) (h1 : c ≠ '%') :
    urlUnescape (c :: rest) =
      if c = '+' then (urlUnescape rest).map (' ' :: ·)
      else (urlUnescape rest).map (c :: ·) := by
  match rest with
  | [] => rw [urlUnescape.eq_3 c [] (by intro h l r hh; cases hh), if_neg h1]
  | [d] => rw [urlUnescape.eq_3 c [d] (by intro h l r hh; simp at hh), if_neg h1]
  | d :: e :: rest' => rw [urlUnescape.eq_2, if_neg h1]

theorem urlUnescape_cons_plain (c : Char) (rest : List Char)
    (h1 : c ≠ '%') (h2 : c ≠ '+') :
    urlUnescape (c :: rest) = (urlUnescape rest).map (c :: ·) := by
  rw [urlUnescape_cons_not_pct c rest h1, if_neg h2]

theorem urlUnescape_cons_plus (rest : List Char) :
    urlUnescape ('+' :: rest) = (urlUnescape rest).map (' ' :: ·) := by
  rw [urlUnescape_cons_not_pct '+' rest (by decide), if_pos rfl]

theorem urlUnescape_pct (hd ld : Char) (rest : List Char) :
    urlUnescape ('%' :: hd :: ld :: rest) =
      match hexVal hd, hexVal ld, urlUnescape rest with
      | some a, some b, some t => some (Char.ofNat (16 * a + b) :: t)
      | _, _, _ => none := by
  rw [urlUnescape.eq_2, if_pos rfl]

theorem urlUnescape_escapeChar (c : Char) (hc : c.toNat < 256) (rest t : List Char)
    (ht : urlUnescape rest = some t) :
    urlUnescape (escapeChar c ++ rest) = some (c :: t) := by
  unfold escapeChar
  split
  · next h1 =>
    have hpc : c ≠ '%' := by rintro rfl; revert h1; decide
    have hplus : c ≠ '+' := by rintro rfl; revert h1; decide
    rw [List.singleton_append, urlUnescape_cons_plain c rest hpc hplus, ht]
    rfl
  · split
    · next h2 =>
      subst h2
      show urlUnescape ('+' :: rest) = some (' ' :: t)
      rw [urlUnescape_cons_plus, ht]
      rfl
    · next h1 h2 =>
      have e1 := (hexDigit_props (c.toNat / 16 % 16) (Nat.mod_lt _ (by omega))).1
      have e2 := (hexDigit_props (c.toNat % 16) (Nat.mod_lt _ (by omega))).1
      have harith : 16 * (c.toNat / 16 % 16) + c.toNat % 16 = c.toNat := by omega
      show urlUnescape ('%' :: hexDigit (c.toNat / 16 % 16) ::
        hexDigit (c.toNat % 16) :: rest) = some (c :: t)
      rw [urlUnescape_pct, e1, e2, ht]
      show some (Char.ofNat (16 * (c.toNat / 16 % 16) + c.toNat % 16) :: t) =
        some (c :: t)
      rw [harith, Char.ofNat_toNat]

theorem urlUnescape_urlEscape (s : List Char) (hs : ∀ c ∈ s, c.toNat < 256) :
    urlUnescape (urlEscape s) = some s := by
  induction s with
  | nil => rfl
  | cons c cs ih =>
    have hc := hs c (List.mem_cons_self c cs)
    have ih' := ih (fun x hx => hs x (List.mem_cons_of_mem _ hx))
    rw [show urlEscape (c :: cs) = escapeChar c ++ urlEscape cs from
      List.flatMap_cons c cs escapeChar]
    exact urlUnescape_escapeChar c hc _ _ ih'

theorem splitOnChar_ne_nil (sep : Char) (l : List Char) : splitOnChar sep l ≠ [] := by
  cases l with
  | nil => simp [splitOnChar]
  | cons c rest =>
    unfold splitOnChar
    split
    · simp
    · cases h : splitOnChar sep rest with
      | nil => simp [consHead]
      | cons g gs => simp [consHead]

theorem splitOnChar_no_sep (sep : Char) : ∀ l : List Char, sep ∉ l →
    splitOnChar sep l = [l]
  | [], _ => rfl
  | c :: rest, h => by
    have hcr : c ≠ sep := fun e => h (e ▸ List.mem_cons_self c rest)
    have hr := splitOnChar_no_sep sep rest (fun e => h (List.mem_cons_of_mem _ e))
    unfold splitOnChar
    rw [if_neg hcr, hr]
    rfl

theorem splitOnChar_cons (sep c : Char) (rest : List Char) :
    splitOnChar sep (c :: rest) =
      if c = sep then [] :: splitOnChar sep rest
      else consHead c (splitOnChar sep rest) := by
  rw [splitOnChar]

theorem splitOnChar_append_sep (sep : Char) : ∀ a b : List Char, sep ∉ a →
    splitOnChar sep (a ++ sep :: b) = a :: splitOnChar sep b
  | [], b, _ => by
    show splitOnChar sep (sep :: b) = [] :: splitOnChar sep b
    rw [splitOnChar_cons, if_pos rfl]
  | c :: a', b, h => by
    have hcs : c ≠ sep := fun e => h (e ▸ List.mem_cons_self c a')
    have ih := splitOnChar_append_sep sep a' b (fun e => h (List.mem_cons_of_mem _ e))
    show splitOnChar sep (c :: (a' ++ sep :: b)) = (c :: a') :: splitOnChar sep b
    rw [splitOnChar_cons, if_neg hcs, ih]
    rfl

theorem splitOnChar_joinAmp : ∀ segs : List (List Char), segs ≠ [] →
    (∀ seg ∈ segs, '&' ∉ seg) → splitOnChar '&' (joinAmp segs) = segs
  | [], hne, _ => absurd rfl hne
  | [x], _, hsep => by
    show splitOnChar '&' x = [x]
    exact splitOnChar_no_sep '&' x (hsep x (by simp))
  | x :: y :: ys, _, hsep => by
    show splitOnChar '&' (x ++ '&' :: joinAmp (y :: ys)) = x :: (y :: ys)
    rw [splitOnChar_append_sep '&' x _ (hsep x (by simp))]
    rw [splitOnChar_joinAmp (y :: ys) (by simp)
      (fun seg hs => hsep seg (List.mem_cons_of_mem _ hs))]

theorem splitPair_append : ∀ a b : List Char, '=' ∉ a →
    splitPair (a ++ '=' :: b) = (a, b)
  | [], b, _ => by simp [splitPair]
  | c :: a', b, h => by
    have hc : c ≠ '=' := fun e => h (e ▸ List.mem_cons_self c a')
    have ih := splitPair_append a' b (fun e => h (List.mem_cons_of_mem _ e))
    simp [splitPair, hc, ih]

theorem encodePair_not_empty (p : String × String) : (encodePair p).isEmpty = false := by
  unfold encodePair
  cases urlEscape p.1.data <;> rfl

theorem amp_not_mem_encodePair (p : String × String) : '&' ∉ encodePair p := by
  unfold encodePair
  intro h
  rcases List.mem_append.mp h with h | h
  · exact amp_not_mem_urlEscape _ h
  · rcases List.mem_cons.mp h with h | h
    · exact absurd h (by decide)
    · exact amp_not_mem_urlEscape _ h

theorem decodeSegs_map_encodePair : ∀ qs : List (String × String),
    (∀ p ∈ qs, (∀ c ∈ p.1.data, c.toNat < 256) ∧ (∀ c ∈ p.2.data, c.toNat < 256)) →
    decodeSegs (qs.map encodePair) = some qs
  | [], _ => rfl
  | q :: qs', hq => by
    obtain ⟨h1, h2⟩ := hq q (List.mem_cons_self q qs')
    have ih := decodeSegs_map_encodePair qs' (fun p hp => hq p (List.mem_cons_of_mem _ hp))
    show decodeSegs (encodePair q :: qs'.map encodePair) = _
    unfold decodeSegs
    rw [show splitPair (encodePair q) = (urlEscape q.1.data, urlEscape q.2.data) from
      splitPair_append _ _ (eqc_not_mem_urlEscape _)]
    rw [urlUnescape_urlEscape _ h1, urlUnescape_urlEscape _ h2, ih]
    rfl

theorem decodeForm_serializeForm (ps : List (String × String))
    (hp : ∀ p ∈ ps, (∀ c ∈ p.1.data, c.toNat < 256) ∧ (∀ c ∈ p.2.data, c.toNat < 256)) :
    decodeForm (serializeForm ps) = some (sortParams ps) := by
  have hq : ∀ p ∈ sortParams ps,
      (∀ c ∈ p.1.data, c.toNat < 256) ∧ (∀ c ∈ p.2.data, c.toNat < 256) :=
    fun p hp' => hp p ((List.perm_insertionSort keyLe ps).mem_iff.mp hp')
  unfold decodeForm serializeForm
  rw [data_asString]
  cases hsp : sortParams ps with
  | nil => simp [joinAmp, splitOnChar, decodeSegs]
  | cons q qs =>
    rw [splitOnChar_joinAmp ((q :: qs).map encodePair) (by simp)
      (fun seg hs => by
        rcases List.mem_map.mp hs with ⟨p, _, rfl⟩
        exact amp_not_mem_encodePair p)]
    rw [List.filter_eq_self.mpr (fun seg hs => by
      rcases List.mem_map.mp hs with ⟨p, _, rfl⟩
      simp [encodePair_not_empty p])]
    exact decodeSegs_map_encodePair (q :: qs) (hsp ▸ hq)

theorem sortParams_perm (ps : List (String × String)) : (sortParams ps).Perm ps :=
  List.perm_insertionSort keyLe ps

theorem sortParams_strict (ps : List (String × String))
    (h : (ps.map Prod.fst).Nodup) : (sortParams ps).Pairwise keyStrict := by
  have hs : (sortParams ps).Pairwise keyLe := List.sorted_insertionSort keyLe ps
  have hn : ((sortParams ps).map Prod.fst).Nodup :=
    (((sortParams_perm ps).map Prod.fst).symm).nodup h
  have hne : (sortParams ps).Pairwise (fun p q => p.1 ≠ q.1) := List.pairwise_map.mp hn
  exact hs.and hne

theorem sortParams_eq_of_perm (ps₁ ps₂ : List (String × String))
    (hperm : ps₁.Perm ps₂) (hnodup : (ps₁.map Prod.fst).Nodup) :
    sortParams ps₁ = sortParams ps₂ := by
  have h₁ := sortParams_strict ps₁ hnodup
  have h₂ := sortParams_strict ps₂ ((hperm.map Prod.fst).nodup hnodup)
  have hp : (sortParams ps₁).Perm (sortParams ps₂) :=
    ((sortParams_perm ps₁).trans hperm).trans (sortParams_perm ps₂).symm
  exact List.eq_of_perm_of_sorted hp h₁ h₂

theorem signRequest_ne_empty (ctx : Context) (body : String) :
    signRequest ctx body ≠ "" := by
  intro h
  have hlen := congrArg String.length h
  unfold signRequest at hlen
  simp only [String.length_append] at hlen
  have h4 : ("AWS " : String).length = 4 := by decide
  have h0 : ("" : String).length = 0 := rfl
  omega

/-- The fault body served by the test server in `TestEC2RequestError`
(written with `Fprintln`, hence the trailing newline). -/
def faultBody : String :=
  "<Response>\n<RequestId>woo</RequestId>\n<Errors>\n<Error>\n<Type>Problem</Type>\n<Code>Uh Oh</Code>\n<Message>You done did it</Message>\n</Error>\n</Errors>\n</Response>\n"

/-- The client the tests build (the test server URL stands in for the
`httptest` endpoint). -/
def exampleClient : EC2Client :=
  { Context := { Service := "animals", Region := "us-west-2",
                 Credentials := Creds "accessKeyID" "secretAccessKey" "securityToken" }
    Endpoint := "http://testserver"
    APIVersion := "1.1" }

set_option maxRecDepth 8192 in
/-- C1: encoding the example request of `TestEC2Request` (mixed present
and missing optional scalars, a two-element scalar slice, a present
nested struct, a two-element struct slice) produces exactly the
enumerated parameter set — `Action`, `Version`, the nine `Present*`
parameters with their exact stringified values, and nothing whose name
starts with `Missing`. -/
theorem exampleRequest_encodes_exactly :
    sortParams (encodeParams "GetIP" "1.1" exampleRequest.toRequestStruct) =
      [("Action", "GetIP"), ("PresentBoolean", "true"), ("PresentDouble", "1.2"),
       ("PresentFloat", "2.3"), ("PresentInteger", "1"), ("PresentLong", "2"),
       ("PresentSlice.1", "one"), ("PresentSlice.2", "two"),
       ("PresentString", "string"), ("PresentStruct.Value", "v"),
       ("PresentStructSlice.1.Value", "p"), ("PresentStructSlice.2.Value", "q"),
       ("Version", "1.1")] ∧
    (encodeParams "GetIP" "1.1" exampleRequest.toRequestStruct).all
      (fun p => !("Missing".data.isPrefixOf p.1.data)) = true ∧
    serializeForm (encodeParams "GetIP" "1.1" exampleRequest.toRequestStruct) =
      "Action=GetIP&PresentBoolean=true&PresentDouble=1.2&PresentFloat=2.3&PresentInteger=1&PresentLong=2&PresentSlice.1=one&PresentSlice.2=two&PresentString=string&PresentStruct.Value=v&PresentStructSlice.1.Value=p&PresentStructSlice.2.Value=q&Version=1.1" :=
  ⟨by decide, by decide, by decide⟩

/-- C2: an optional-scalar wrapper field with presence=false contributes
no parameter at all, regardless of the wrapped value; with presence=true
it contributes exactly one parameter, its tag mapped to the exact
stringified value (booleans as `"true"`/`"false"`, integers base-10). -/
theorem optScalar_presence_encoding (a v t : String) (sc : Scalar)
    (pre post : RequestStruct) :
    encodeParams a v (pre ++ ⟨t, .optScalar ⟨sc, false⟩⟩ :: post) =
      encodeParams a v (pre ++ post) ∧
    (encodeParams a v (pre ++ ⟨t, .optScalar ⟨sc, true⟩⟩ :: post)).Perm
      ((t, sc.render) :: encodeParams a v (pre ++ post)) ∧
    Scalar.render (.boolean true) = "true" ∧
    Scalar.render (.boolean false) = "false" ∧
    (∀ n : Int, Scalar.render (.int n) = toString n) := by
  refine ⟨?_, ?_, rfl, rfl, fun _ => rfl⟩
  · exact encodeParams_insert_silent a v _ pre post rfl
  · have h := encodeParams_insert_perm a v ⟨t, .optScalar ⟨sc, true⟩⟩ pre post
    simpa [encodeField] using h

/-- C3: a sequence-of-scalars field of length `N` contributes exactly the
`N` parameters `tag.1` … `tag.N`, 1-indexed, with the corresponding
element values, whatever they are; a length-0 sequence contributes
nothing. -/
theorem scalarSeq_encoding (a v t : String) (xs : List Scalar)
    (pre post : RequestStruct) :
    (encodeField ⟨t, .scalarSeq xs⟩).length = xs.length ∧
    (∀ i : Nat, (encodeField ⟨t, .scalarSeq xs⟩)[i]? =
      (xs[i]?).map (fun x => (t ++ "." ++ toString (i + 1), x.render))) ∧
    encodeParams a v (pre ++ ⟨t, .scalarSeq []⟩ :: post) =
      encodeParams a v (pre ++ post) ∧
    (encodeParams a v (pre ++ ⟨t, .scalarSeq xs⟩ :: post)).Perm
      (encodeField ⟨t, .scalarSeq xs⟩ ++ encodeParams a v (pre ++ post)) := by
  refine ⟨?_, ?_, ?_, ?_⟩
  · show ((List.enum xs).map _).length = xs.length
    rw [List.length_map, List.enum_length]
  · intro i
    show ((List.enum xs).map _)[i]? = _
    rw [List.getElem?_map, List.getElem?_enum]
    cases xs[i]? <;> rfl
  · exact encodeParams_insert_silent a v _ pre post rfl
  · exact encodeParams_insert_perm a v _ pre post

/-- C4: with distinct keys, the serialized body lists its parameters in
strictly ascending lexical key order, the body does not depend on the
declaration order of the fields (any permutation of the structure yields
the identical byte sequence), and serialization is a pure function, so
encoding the same structure twice is byte-identical. -/
theorem serializeForm_sorted_deterministic (a v : String)
    (r₁ r₂ : RequestStruct) (hperm : r₁.Perm r₂)
    (hnodup : ((encodeParams a v r₁).map Prod.fst).Nodup) :
    (sortParams (encodeParams a v r₁)).Pairwise keyStrict ∧
    serializeForm (encodeParams a v r₁) = serializeForm (encodeParams a v r₂) ∧
    serializeForm (encodeParams a v r₁) = serializeForm (encodeParams a v r₁) := by
  have hpp : (encodeParams a v r₁).Perm (encodeParams a v r₂) := by
    unfold encodeParams
    exact ((List.Perm.flatMap_right encodeField hperm).cons _).cons _
  refine ⟨sortParams_strict _ hnodup, ?_, rfl⟩
  unfold serializeForm
  rw [sortParams_eq_of_perm _ _ hpp hnodup]

theorem serializeForm_sorted_deterministic_witness :
    (sortParams (encodeParams "GetIP" "1.1"
      [⟨"B", .plainScalar (.str "x")⟩, ⟨"A", .plainScalar (.str "y")⟩])).Pairwise
        keyStrict ∧
    serializeForm (encodeParams "GetIP" "1.1"
      [⟨"B", .plainScalar (.str "x")⟩, ⟨"A", .plainScalar (.str "y")⟩]) =
      serializeForm (encodeParams "GetIP" "1.1"
        [⟨"A", .plainScalar (.str "y")⟩, ⟨"B", .plainScalar (.str "x")⟩]) ∧
    serializeForm (encodeParams "GetIP" "1.1"
      [⟨"B", .plainScalar (.str "x")⟩, ⟨"A", .plainScalar (.str "y")⟩]) =
      serializeForm (encodeParams "GetIP" "1.1"
        [⟨"B", .plainScalar (.str "x")⟩, ⟨"A", .plainScalar (.str "y")⟩]) :=
  serializeForm_sorted_deterministic "GetIP" "1.1"
    [⟨"B", .plainScalar (.str "x")⟩, ⟨"A", .plainScalar (.str "y")⟩]
    [⟨"A", .plainScalar (.str "y")⟩, ⟨"B", .plainScalar (.str "x")⟩]
    (List.Perm.swap _ _ _) (by decide)

/-- C5: on a non-success status whose body parses as the fixed fault
schema, `Do` surfaces the first `<Error>` element's `Type`, `Code` and
`Message` as a structured `APIError`. -/
theorem do_fault_surfaces_first_error {β : Type} (c : EC2Client)
    (action method path : String) (r : RequestStruct) (decodeOut : String → β)
    (status : Nat) (body : String) (e : APIError)
    (hsup : r.all ReqField.supportedB = true)
    (hstatus : ¬ (200 ≤ status ∧ status ≤ 299))
    (hparse : parseFirstError body = some e) :
    c.Do action method path r (fun _ => .ok ⟨status, body⟩) decodeOut =
      .apiError e := by
  unfold EC2Client.Do EC2Client.buildRequest encodeRequest
  rw [if_pos hsup]
  dsimp only
  rw [if_neg hstatus, hparse]

theorem do_fault_surfaces_first_error_witness :
    exampleClient.Do "GetIP" "POST" "/" fakeEC2Request.zero.toRequestStruct
      (fun _ => .ok ⟨400, faultBody⟩) fakeEC2Response.decode =
      .apiError ⟨"Problem", "Uh Oh", "You done did it", "woo"⟩ :=
  do_fault_surfaces_first_error exampleClient "GetIP" "POST" "/"
    fakeEC2Request.zero.toRequestStruct fakeEC2Response.decode 400 faultBody
    ⟨"Problem", "Uh Oh", "You done did it", "woo"⟩
    (by decide) (by decide) (by decide)

/-- C6: on a success status (200-299) `Do` populates the output structure
from the XML body per its field-to-tag mapping and reports no error; the
body `<Thing><IpAddress>woo</IpAddress></Thing>` decoded into
`fakeEC2Response` (whose only field is tagged `IpAddress`) yields
`IPAddress = "woo"` and no other field. -/
theorem do_success_decodes_output (c : EC2Client) (action method path : String)
    (r : RequestStruct) (status : Nat) (body : String)
    (hsup : r.all ReqField.supportedB = true)
    (hstatus : 200 ≤ status ∧ status ≤ 299) :
    c.Do action method path r (fun _ => .ok ⟨status, body⟩)
      fakeEC2Response.decode = .ok (fakeEC2Response.decode body) ∧
    fakeEC2Response.decode "<Thing><IpAddress>woo</IpAddress></Thing>\n" =
      ⟨"woo"⟩ := by
  constructor
  · unfold EC2Client.Do EC2Client.buildRequest encodeRequest
    rw [if_pos hsup]
    dsimp only
    rw [if_pos hstatus]
  · decide

theorem do_success_decodes_output_witness :
    exampleClient.Do "GetIP" "POST" "/" exampleRequest.toRequestStruct
      (fun _ => .ok ⟨200, "<Thing><IpAddress>woo</IpAddress></Thing>\n"⟩)
      fakeEC2Response.decode =
      .ok (fakeEC2Response.decode "<Thing><IpAddress>woo</IpAddress></Thing>\n") ∧
    fakeEC2Response.decode "<Thing><IpAddress>woo</IpAddress></Thing>\n" =
      ⟨"woo"⟩ :=
  do_success_decodes_output exampleClient "GetIP" "POST" "/"
    exampleRequest.toRequestStruct 200 "<Thing><IpAddress>woo</IpAddress></Thing>\n"
    (by decide) (by decide)

/-- C7: decoding the serialized form body recovers exactly the encoded
parameters — every non-absent field's parameters come back with their
original (stringified) values and absent fields stay absent — for
parameters whose characters fit the one-byte percent-escape model. -/
theorem form_roundtrip (a v : String) (r : RequestStruct)
    (hchars : ∀ p ∈ encodeParams a v r,
      (∀ c ∈ p.1.data, c.toNat < 256) ∧ (∀ c ∈ p.2.data, c.toNat < 256)) :
    decodeForm (serializeForm (encodeParams a v r)) =
      some (sortParams (encodeParams a v r)) ∧
    (sortParams (encodeParams a v r)).Perm (encodeParams a v r) :=
  ⟨decodeForm_serializeForm _ hchars, sortParams_perm _⟩

theorem form_roundtrip_witness :
    decodeForm (serializeForm (encodeParams "GetIP" "1.1"
        exampleRequest.toRequestStruct)) =
      some (sortParams (encodeParams "GetIP" "1.1"
        exampleRequest.toRequestStruct)) ∧
    (sortParams (encodeParams "GetIP" "1.1"
        exampleRequest.toRequestStruct)).Perm
      (encodeParams "GetIP" "1.1" exampleRequest.toRequestStruct) :=
  form_roundtrip "GetIP" "1.1" exampleRequest.toRequestStruct (by decide)

/-- C8: every request `Do` dispatches carries the method given by the
caller, `Content-Type: application/x-www-form-urlencoded`, the fixed
`User-Agent` `aws-go`, and a non-empty `Authorization` header. -/
theorem do_request_headers (c : EC2Client) (action method path : String)
    (r : RequestStruct) (req : HTTPRequest)
    (hok : c.buildRequest action method path r = .ok req) :
    req.Method = method ∧
    req.Headers.lookup "Content-Type" =
      some "application/x-www-form-urlencoded" ∧
    req.Headers.lookup "User-Agent" = some "aws-go" ∧
    ∃ auth, req.Headers.lookup "Authorization" = some auth ∧ auth ≠ "" := by
  unfold EC2Client.buildRequest encodeRequest at hok
  by_cases hsup : r.all ReqField.supportedB
  · rw [if_pos hsup] at hok
    dsimp only at hok
    injection hok with h
    subst h
    refine ⟨rfl, rfl, rfl, signRequest c.Context _, rfl, signRequest_ne_empty _ _⟩
  · rw [if_neg hsup] at hok
    cases hok

/-- The HTTP request `buildRequest` produces for the zero request against
the example client. -/
def zeroHTTPRequest : HTTPRequest :=
  { Method := "POST", URL := "http://testserver/",
    Headers := [("Content-Type", "application/x-www-form-urlencoded"),
                ("User-Agent", "aws-go"),
                ("Authorization", "AWS accessKeyID:animals/us-west-2/24")],
    Body := "Action=GetIP&Version=1.1" }

theorem do_request_headers_witness :
    zeroHTTPRequest.Method = "POST" ∧
    zeroHTTPRequest.Headers.lookup "Content-Type" =
      some "application/x-www-form-urlencoded" ∧
    zeroHTTPRequest.Headers.lookup "User-Agent" = some "aws-go" ∧
    ∃ auth, zeroHTTPRequest.Headers.lookup "Authorization" = some auth ∧
      auth ≠ "" :=
  do_request_headers exampleClient "GetIP" "POST" "/"
    fakeEC2Request.zero.toRequestStruct zeroHTTPRequest (by rfl)

/-- C9: the encoder fails fast exactly on request structures containing a
field of an unsupported kind, and never fails on structures composed only
of the five supported kinds (which it encodes to their parameter list). -/
theorem encodeRequest_fail_fast (a v : String) (r : RequestStruct) :
    ((∃ f ∈ r, ReqField.supportedB f = false) ↔
      ∃ e, encodeRequest a v r = .error e) ∧
    ((∀ f ∈ r, ReqField.supportedB f = true) ↔
      encodeRequest a v r = .ok (encodeParams a v r)) := by
  unfold encodeRequest
  by_cases h : r.all ReqField.supportedB
  · rw [if_pos h]
    have hall := List.all_eq_true.mp h
    constructor
    · constructor
      · rintro ⟨f, hf, hfalse⟩
        rw [hall f hf] at hfalse
        cases hfalse
      · rintro ⟨e, he⟩
        cases he
    · exact ⟨fun _ => rfl, fun _ => hall⟩
  · rw [if_neg h]
    have hex : ∃ f ∈ r, ReqField.supportedB f = false := by
      by_contra hc
      push_neg at hc
      simp only [Bool.ne_false_iff] at hc
      exact h (List.all_eq_true.mpr hc)
    constructor
    · exact ⟨fun _ => ⟨_, rfl⟩, fun _ => hex⟩
    · constructor
      · intro hall
        exact absurd (List.all_eq_true.mpr hall) h
      · intro he
        cases he

/-- C10: the concrete vendor DynamoDB client satisfies the one-method
`DynamoDBer` capability interface — using it through the interface is the
identity on its `Query` method, with no added semantics, so callers
written against `DynamoDBer` accept the real client or a test double
interchangeably. -/
theorem dynamoDB_satisfies_DynamoDBer (c : DynamoDB) (q : Option QueryInput) :
    (DynamoDB.toDynamoDBer c).Query q = c.Query q := rfl
